import Mathlib

/-!
Verification of the cdhash-computation core (src/cdhash.c).

The byte buffer handed to the parser is modelled as a total function
f : Nat → Nat giving the byte stored at each offset (reads reduce the value
mod 256, since C memory cells are bytes), together with an explicit size.
Pointers into the buffer become Nat offsets from the start of the buffer.
The cryptographic digests (CommonCrypto SHA-1/SHA-256) are out of scope per
the specification and are passed in as abstract functions from byte lists to
byte lists.  The two loops of the Mach-O reader, which the C source writes as
unbounded while/for(;;) loops, are modelled with an explicit fuel parameter:
a result of none means the fuel ran out, and a statement that holds for
every fuel amount describes genuine divergence of the C loop.

Where the C code writes into the caller's cdhash output buffer
(the memcpy calls in cdhash_sha1 / cdhash_sha256), the model records a write
event in a list, so that which paths write the output is itself provable.
-/

/-- Little-endian 32-bit read at a byte offset: models reading a native
uint32 field of a Mach-O structure on the little-endian host assumed by the
MH_MAGIC_64 comparison. -/
def read32LE (f : Nat → Nat) (off : Nat) : Nat :=
  f off % 256 + f (off + 1) % 256 * 256 + f (off + 2) % 256 * 65536 +
    f (off + 3) % 256 * 16777216

/-- Big-endian 32-bit read at a byte offset: models reading a uint32 signature
field followed by ntohl, as the code-signing structures are big-endian. -/
def read32BE (f : Nat → Nat) (off : Nat) : Nat :=
  f off % 256 * 16777216 + f (off + 1) % 256 * 65536 + f (off + 2) % 256 * 256 +
    f (off + 3) % 256

/-- Single byte read (a uint8_t field such as CS_CodeDirectory.hashType). -/
def read8 (f : Nat → Nat) (off : Nat) : Nat := f off % 256

/-- View of the same buffer starting at a byte offset: models pointer
arithmetic such as (uint8_t *)sb + offset. -/
def shiftView (f : Nat → Nat) (off : Nat) : Nat → Nat := fun i => f (off + i)

/-- Bytes of the record starting at the view's origin, of the given length:
the byte range a digest call CC_SHA1(cd, length, out) consumes. -/
def bytesOf (g : Nat → Nat) (len : Nat) : List Nat :=
  (List.range len).map (fun i => g i % 256)

/-- Mach-O 64-bit magic (mach-o/loader.h). -/
def MH_MAGIC_64 : Nat := 0xfeedfacf

/-- Load-command type tag of the code-signature command (mach-o/loader.h). -/
def LC_CODE_SIGNATURE : Nat := 0x1d

/-- Magic of an embedded-signature super-blob. -/
def CSMAGIC_EMBEDDED_SIGNATURE : Nat := 0xfade0cc0

/-- Magic of a code-directory blob. -/
def CSMAGIC_CODEDIRECTORY : Nat := 0xfade0c02

/-- Super-blob index slot type of the primary code directory. -/
def CSSLOT_CODEDIRECTORY : Nat := 0

/-- First slot type of the alternate code-directory range. -/
def CSSLOT_ALTERNATE_CODEDIRECTORIES : Nat := 0x1000

/-- One-past-the-last slot type of the alternate code-directory range. -/
def CSSLOT_ALTERNATE_CODEDIRECTORY_LIMIT : Nat := 0x1005

/-- Code-directory hash-type constants (fixed by the wire format). -/
def CS_HASHTYPE_SHA1 : Nat := 1

/-- Hash type SHA-256. -/
def CS_HASHTYPE_SHA256 : Nat := 2

/-- Hash type truncated SHA-256. -/
def CS_HASHTYPE_SHA256_TRUNCATED : Nat := 3

/-- Hash type SHA-384. -/
def CS_HASHTYPE_SHA384 : Nat := 4

/-- Length in bytes of a cdhash. -/
def CS_CDHASH_LEN : Nat := 20

/-- Modelled from the spec: the header cdhash.h declaring struct
CS_CodeDirectory is not under src/; the source's comments reference the XNU
cs_blobs.h layout (including its end_earliest marker), whose CS_CodeDirectory
— fields magic through the version-0x20400 exec-segment fields — occupies 88
bytes, with the uint8_t hashType field at byte offset 37.  This constant is
the minimum_struct_size the specification's validate operation names. -/
def sizeof_CS_CodeDirectory : Nat := 88

/-- Modelled from the spec: byte offset of the hashType field inside
CS_CodeDirectory (fixed across all versions of the format). -/
def hashType_offset : Nat := 37

/-- Modelled from the spec: sizeof(CS_SuperBlob) — magic, length, count. -/
def sizeof_CS_SuperBlob : Nat := 12

/-- Modelled from the spec: sizeof(CS_BlobIndex) — type, offset. -/
def sizeof_CS_BlobIndex : Nat := 8

/-- Modelled from the spec: sizeof(CS_GenericBlob) — magic, length. -/
def sizeof_CS_GenericBlob : Nat := 8

/-- Modelled from the spec: sizeof(struct mach_header_64); its sizeofcmds
field is the uint32 at byte offset 20. -/
def sizeof_mach_header_64 : Nat := 32

/-- Model of macho_identify: size at least 0x1000 and 64-bit Mach-O magic. -/
def macho_identify (f : Nat → Nat) (size : Nat) : Bool :=
  if size < 0x1000 then false
  else if read32LE f 0 ≠ MH_MAGIC_64 then false
  else true

/-- Model of the while loop of macho_validate.  lcEnd and lcP are byte
offsets from the Mach-O header; each step reads the cmdsize field at
lcP + 4.  The fuel argument makes the C while loop, which need not
terminate, a total function: none means the fuel was exhausted. -/
def machoValidateLoop (fuel : Nat) (f : Nat → Nat) (lcEnd lcP : Nat) : Option Bool :=
  match fuel with
  | 0 => none
  | fuel + 1 =>
    if lcP < lcEnd then
      if 0x80000000 ≤ read32LE f (lcP + 4) then some false
      else if lcEnd < lcP + read32LE f (lcP + 4) then some false
      else machoValidateLoop fuel f lcEnd (lcP + read32LE f (lcP + 4))
    else some true

/-- Model of the while loop of macho_validate instrumented with the list of
byte offsets the loop reads from the buffer: each iteration reads the four
bytes of the cmdsize field at lcP + 4 .. lcP + 7. -/
def machoValidateLoopR (fuel : Nat) (f : Nat → Nat) (lcEnd lcP : Nat) :
    Option (Bool × List Nat) :=
  match fuel with
  | 0 => none
  | fuel + 1 =>
    if lcP < lcEnd then
      if 0x80000000 ≤ read32LE f (lcP + 4) then
        some (false, [lcP + 4, lcP + 5, lcP + 6, lcP + 7])
      else if lcEnd < lcP + read32LE f (lcP + 4) then
        some (false, [lcP + 4, lcP + 5, lcP + 6, lcP + 7])
      else
        match machoValidateLoopR fuel f lcEnd (lcP + read32LE f (lcP + 4)) with
        | none => none
        | some (b, rs) => some (b, [lcP + 4, lcP + 5, lcP + 6, lcP + 7] ++ rs)
    else some (true, [])

/-- Model of macho_validate: identify, check sizeofcmds ≤ size, then walk
the load commands from offset 32 to 32 + sizeofcmds. -/
def macho_validate (fuel : Nat) (f : Nat → Nat) (size : Nat) : Option Bool :=
  if macho_identify f size = false then some false
  else if size < read32LE f 20 then some false
  else machoValidateLoop fuel f (32 + read32LE f 20) 32

/-- Model of macho_next_load_command: NULL in, first command at offset 32;
otherwise advance by the current command's cmdsize; NULL out when the
position reaches 32 + sizeofcmds. -/
def macho_next_load_command (f : Nat → Nat) (lc : Option Nat) : Option Nat :=
  let next := match lc with
    | none => 32
    | some p => p + read32LE f (p + 4)
  if 32 + read32LE f 20 ≤ next then none else some next

/-- Model of macho_find_load_command: repeatedly take the next load command
until NULL or a command whose cmd field matches.  Fueled because the C
for(;;) loop need not terminate. -/
def macho_find_load_command (fuel : Nat) (f : Nat → Nat) (command : Nat)
    (lc : Option Nat) : Option (Option Nat) :=
  match fuel with
  | 0 => none
  | fuel + 1 =>
    match macho_next_load_command f lc with
    | none => some none
    | some p =>
      if read32LE f p = command then some (some p)
      else macho_find_load_command fuel f command (some p)

/-- Model of cs_codedirectory_validate: 0 is the failure value, a nonzero
result is the validated declared length of the code directory. -/
def cs_codedirectory_validate (cd : Nat → Nat) (size : Nat) : Nat :=
  if size < sizeof_CS_CodeDirectory then 0
  else if read32BE cd 0 ≠ CSMAGIC_CODEDIRECTORY then 0
  else if size < read32BE cd 4 then 0
  else read32BE cd 4

/-- Model of cs_superblob_validate: 0 is the failure value, a nonzero result
is the validated declared length of the super-blob. -/
def cs_superblob_validate (sb : Nat → Nat) (size : Nat) : Nat :=
  if size < sizeof_CS_SuperBlob then 0
  else if read32BE sb 0 ≠ CSMAGIC_EMBEDDED_SIGNATURE then 0
  else if size < read32BE sb 4 then 0
  else if 0x10000 ≤ read32BE sb 8 ∨ size < 12 + 8 * read32BE sb 8 then 0
  else read32BE sb 4

/-- Model of cdhash_sha1: digest the record's length bytes with SHA-1 and
copy the first CS_CDHASH_LEN bytes out. -/
def cdhash_sha1 (sha1 : List Nat → List Nat) (cd : Nat → Nat) (length : Nat) :
    List Nat :=
  (sha1 (bytesOf cd length)).take CS_CDHASH_LEN

/-- Model of cdhash_sha256: digest the record's length bytes with SHA-256 and
copy the first CS_CDHASH_LEN bytes out. -/
def cdhash_sha256 (sha256 : List Nat → List Nat) (cd : Nat → Nat) (length : Nat) :
    List Nat :=
  (sha256 (bytesOf cd length)).take CS_CDHASH_LEN

/-- Model of cs_codedirectory_cdhash.  The C function re-reads the declared
length from the record (ignoring its size parameter, kept here for
faithfulness) and dispatches on hashType; the second component lists the
write events into the caller's cdhash output buffer. -/
def cs_codedirectory_cdhash (sha1 sha256 : List Nat → List Nat) (cd : Nat → Nat)
    (size : Nat) : Bool × List (List Nat) :=
  if read8 cd hashType_offset = CS_HASHTYPE_SHA1 then
    (true, [cdhash_sha1 sha1 cd (read32BE cd 4)])
  else if read8 cd hashType_offset = CS_HASHTYPE_SHA256 then
    (true, [cdhash_sha256 sha256 cd (read32BE cd 4)])
  else (false, [])

/-- The ranked_hash_types array of cs_codedirectory_rank, least to most
preferred. -/
def ranked_hash_types : List Nat :=
  [CS_HASHTYPE_SHA1, CS_HASHTYPE_SHA256_TRUNCATED, CS_HASHTYPE_SHA256,
    CS_HASHTYPE_SHA384]

/-- The scan of cs_codedirectory_rank over the ranked list: return the
1-based index of the first element equal to the hash type, else 0. -/
def rankScan (h : Nat) : List Nat → Nat → Nat
  | [], _ => 0
  | t :: rest, i => if t = h then i + 1 else rankScan h rest (i + 1)

/-- Model of cs_codedirectory_rank. -/
def cs_codedirectory_rank (cd : Nat → Nat) : Nat :=
  rankScan (read8 cd hashType_offset) ranked_hash_types 0

/-- Type field of super-blob index entry i (ntohl of sb->index[i].type). -/
def sbIndexType (f : Nat → Nat) (i : Nat) : Nat := read32BE f (12 + 8 * i)

/-- Offset field of super-blob index entry i (ntohl of sb->index[i].offset). -/
def sbIndexOffset (f : Nat → Nat) (i : Nat) : Nat := read32BE f (16 + 8 * i)

/-- Does an index entry's type mark a code directory: the primary slot, or
the alternate code-directory slot range. -/
def qualifiesSlot (type : Nat) : Bool :=
  decide (type = CSSLOT_CODEDIRECTORY ∨
    (CSSLOT_ALTERNATE_CODEDIRECTORIES ≤ type ∧
      type < CSSLOT_ALTERNATE_CODEDIRECTORY_LIMIT))

/-- Rank of the running best candidate: 0 when best_cd is still NULL. -/
def bestRank : Option (Nat × Nat × Nat) → Nat
  | none => 0
  | some (_, r, _) => r

/-- The index loop of cs_superblob_cdhash over the listed entry indices,
carrying the best candidate so far as (offset, rank, validated length).
none models the C function returning false from inside the loop. -/
def sbFindAux (f : Nat → Nat) (size : Nat) :
    List Nat → Option (Nat × Nat × Nat) → Option (Option (Nat × Nat × Nat))
  | [], best => some best
  | i :: rest, best =>
    if size < sbIndexOffset f i then none
    else if qualifiesSlot (sbIndexType f i) = true then
      if cs_codedirectory_validate (shiftView f (sbIndexOffset f i))
          (size - sbIndexOffset f i) = 0 then none
      else if bestRank best <
          cs_codedirectory_rank (shiftView f (sbIndexOffset f i)) then
        sbFindAux f size rest
          (some (sbIndexOffset f i,
            cs_codedirectory_rank (shiftView f (sbIndexOffset f i)),
            cs_codedirectory_validate (shiftView f (sbIndexOffset f i))
              (size - sbIndexOffset f i)))
      else sbFindAux f size rest best
    else sbFindAux f size rest best

/-- Model of cs_superblob_cdhash: scan all count index entries for the best
code directory, then hash it. -/
def cs_superblob_cdhash (sha1 sha256 : List Nat → List Nat) (f : Nat → Nat)
    (size : Nat) : Bool × List (List Nat) :=
  match sbFindAux f size (List.range (read32BE f 8)) none with
  | none => (false, [])
  | some none => (false, [])
  | some (some (offset, _, cdSize)) =>
    cs_codedirectory_cdhash sha1 sha256 (shiftView f offset) cdSize

/-- Model of csblob_cdhash: validate the generic blob header and dispatch on
its magic to the super-blob or code-directory reader. -/
def csblob_cdhash (sha1 sha256 : List Nat → List Nat) (f : Nat → Nat)
    (size : Nat) : Bool × List (List Nat) :=
  if size < sizeof_CS_GenericBlob then (false, [])
  else if size < read32BE f 4 then (false, [])
  else if read32BE f 0 = CSMAGIC_EMBEDDED_SIGNATURE then
    if cs_superblob_validate f (read32BE f 4) = 0 then (false, [])
    else cs_superblob_cdhash sha1 sha256 f (read32BE f 4)
  else if read32BE f 0 = CSMAGIC_CODEDIRECTORY then
    if cs_codedirectory_validate f (read32BE f 4) = 0 then (false, [])
    else cs_codedirectory_cdhash sha1 sha256 f (read32BE f 4)
  else (false, [])

/-- Model of compute_cdhash_macho: find LC_CODE_SIGNATURE, bounds-check the
dataoff/datasize region against the buffer, and dispatch the blob. -/
def compute_cdhash_macho (fuel : Nat) (sha1 sha256 : List Nat → List Nat)
    (f : Nat → Nat) (size : Nat) : Option (Bool × List (List Nat)) :=
  match macho_find_load_command fuel f LC_CODE_SIGNATURE none with
  | none => none
  | some none => some (false, [])
  | some (some lcOff) =>
    if 0 < read32LE f (lcOff + 8) ∧
        read32LE f (lcOff + 8) < read32LE f (lcOff + 8) + read32LE f (lcOff + 12) ∧
        read32LE f (lcOff + 8) + read32LE f (lcOff + 12) ≤ size then
      some (csblob_cdhash sha1 sha256 (shiftView f (read32LE f (lcOff + 8)))
        (read32LE f (lcOff + 12)))
    else some (false, [])

/-- Model of compute_cdhash, the exposed entry point: identify, validate,
then compute for the Mach-O; none models divergence of the C loops. -/
def compute_cdhash (fuel : Nat) (sha1 sha256 : List Nat → List Nat)
    (f : Nat → Nat) (size : Nat) : Option (Bool × List (List Nat)) :=
  if macho_identify f size = true then
    match macho_validate fuel f size with
    | none => none
    | some false => some (false, [])
    | some true => compute_cdhash_macho fuel sha1 sha256 f size
  else some (false, [])

/-- Buffer exhibiting the out-of-bounds read of the load-command walk: a
4096-byte file with the 64-bit Mach-O magic, sizeofcmds = 0x1000 (which the
sizeofcmds ≤ size check accepts), a first load command with cmdsize = 0x0ff8
(so the walk advances to offset 4120, past the 4096-byte buffer), and the
byte the walk then reads at offset 4124 set so the run terminates. -/
def fC1 : Nat → Nat := fun off =>
  if off = 0 then 0xcf else if off = 1 then 0xfa
  else if off = 2 then 0xed else if off = 3 then 0xfe
  else if off = 21 then 0x10
  else if off = 36 then 0xf8 else if off = 37 then 0x0f
  else if off = 4124 then 0xff
  else 0

/-- Buffer exhibiting the non-terminating load-command walk: a 4096-byte
file with the 64-bit Mach-O magic, sizeofcmds = 8, and one load command
whose cmdsize field is 0, so the walk position never advances. -/
def fC2 : Nat → Nat := fun off =>
  if off = 0 then 0xcf else if off = 1 then 0xfa
  else if off = 2 then 0xed else if off = 3 then 0xfe
  else if off = 20 then 8
  else 0

/-- Claim C1: refuted on the code — the buffer fC1 passes macho_identify and
the sizeofcmds ≤ size check, yet the load-command walk of macho_validate
reads the cmdsize field at byte offsets 4124..4127, outside [0, 4096): the
walk's end bound is header size 32 plus sizeofcmds, which exceeds the
buffer size, so a parsing step of compute_cdhash reads out of bounds. -/
theorem C1_macho_validate_reads_out_of_bounds :
    macho_identify fC1 4096 = true ∧
    read32LE fC1 20 ≤ 4096 ∧
    4096 < 32 + read32LE fC1 20 ∧
    machoValidateLoopR 3 fC1 (32 + read32LE fC1 20) 32 =
      some (false, [36, 37, 38, 39, 4124, 4125, 4126, 4127]) ∧
    ([36, 37, 38, 39, 4124, 4125, 4126, 4127].any (fun o => 4096 ≤ o)) = true := by
  refine ⟨by decide, by decide, by decide, by decide, by decide⟩

/-- Helper for claim C2: with a cmdsize of 0 at the walk position the loop
never advances, so it fails to finish for every amount of fuel. -/
theorem machoValidateLoop_fC2_diverges :
    ∀ fuel, machoValidateLoop fuel fC2 40 32 = none := by
  intro fuel
  induction fuel with
  | zero => rfl
  | succ n ih => exact ih

/-- Claim C2: refuted on the code — the buffer fC2 is accepted by
macho_identify, yet the while loop of macho_validate never terminates on it
(it contains a load command whose cmdsize is 0, so lc_p never advances), and
hence compute_cdhash does not terminate either: for every fuel amount the
model reports fuel exhaustion. -/
theorem C2_macho_validate_diverges :
    macho_identify fC2 4096 = true ∧
    (∀ fuel, macho_validate fuel fC2 4096 = none) ∧
    (∀ fuel sha1 sha256, compute_cdhash fuel sha1 sha256 fC2 4096 = none) := by
  refine ⟨by decide, ?_, ?_⟩
  · intro fuel
    have h : macho_validate fuel fC2 4096 = machoValidateLoop fuel fC2 40 32 := rfl
    rw [h, machoValidateLoop_fC2_diverges fuel]
  · intro fuel sha1 sha256
    have hv : macho_validate fuel fC2 4096 = none := by
      have h : macho_validate fuel fC2 4096 = machoValidateLoop fuel fC2 40 32 := rfl
      rw [h, machoValidateLoop_fC2_diverges fuel]
    unfold compute_cdhash
    rw [if_pos (by decide : macho_identify fC2 4096 = true), hv]

/-- A code-directory record of declared length 60 inside 88 available bytes:
correct magic, length strictly smaller than the available size. -/
def gW6 : Nat → Nat := fun off =>
  if off = 0 then 0xfa else if off = 1 then 0xde
  else if off = 2 then 0x0c else if off = 3 then 0x02
  else if off = 7 then 60
  else 0

/-- A code-directory record of declared length 8 inside 88 available bytes:
correct magic, nonzero length below the minimum struct size. -/
def gW7 : Nat → Nat := fun off =>
  if off = 0 then 0xfa else if off = 1 then 0xde
  else if off = 2 then 0x0c else if off = 3 then 0x02
  else if off = 7 then 8
  else 0

/-- Claim C6: cs_codedirectory_validate succeeds exactly when the available
size is at least the minimum struct size, the big-endian magic is the
code-directory magic, and the declared big-endian length is nonzero and at
most the available size; on success it returns the declared length, which
can be strictly smaller than the available size. -/
theorem C6_codedirectory_validate_characterization :
    (∀ (g : Nat → Nat) (size : Nat),
      (cs_codedirectory_validate g size ≠ 0 ↔
        (sizeof_CS_CodeDirectory ≤ size ∧ read32BE g 0 = CSMAGIC_CODEDIRECTORY ∧
          0 < read32BE g 4 ∧ read32BE g 4 ≤ size)) ∧
      (cs_codedirectory_validate g size ≠ 0 →
        cs_codedirectory_validate g size = read32BE g 4)) ∧
    (∃ (g : Nat → Nat) (size : Nat),
      cs_codedirectory_validate g size ≠ 0 ∧
      cs_codedirectory_validate g size < size) := by
  refine ⟨fun g size => ?_, ⟨gW6, 88, by decide, by decide⟩⟩
  unfold cs_codedirectory_validate
  split_ifs with h1 h2 h3
  · exact ⟨⟨fun h => absurd rfl h, fun h => absurd h.1 (by omega)⟩,
      fun h => absurd rfl h⟩
  · exact ⟨⟨fun h => absurd rfl h, fun h => absurd h.2.1 h2⟩,
      fun h => absurd rfl h⟩
  · exact ⟨⟨fun h => absurd rfl h, fun h => absurd h.2.2.2 (by omega)⟩,
      fun h => absurd rfl h⟩
  · exact ⟨⟨fun h => ⟨by omega, not_not.mp h2, by omega, by omega⟩,
      fun h => by omega⟩, fun _ => rfl⟩

/-- Witness for claim C6: the success equation of the characterization at
the concrete record gW6. -/
theorem C6_codedirectory_validate_witness :
    cs_codedirectory_validate gW6 88 = read32BE gW6 4 :=
  (C6_codedirectory_validate_characterization.1 gW6 88).2 (by decide)

/-- Claim C7 counterexample: the record gW7 is accepted by
cs_codedirectory_validate (the returned length is nonzero) although its
declared length 8 is strictly below sizeof(CS_CodeDirectory), refuting the
claim that every accepted code directory has length at least the minimum
struct size. -/
theorem C7_counterexample :
    cs_codedirectory_validate gW7 88 ≠ 0 ∧
    cs_codedirectory_validate gW7 88 < sizeof_CS_CodeDirectory := by
  exact ⟨by decide, by decide⟩

/-- Claim C7 as amended: every code directory accepted by
cs_codedirectory_validate has an available size of at least the minimum
struct size and a declared length that is nonzero and at most the available
size — but the declared length itself is not checked against the minimum
struct size and may be smaller than it. -/
theorem C7_accepted_invariant :
    ∀ (g : Nat → Nat) (size : Nat), cs_codedirectory_validate g size ≠ 0 →
      sizeof_CS_CodeDirectory ≤ size ∧
      0 < cs_codedirectory_validate g size ∧
      cs_codedirectory_validate g size ≤ size := by
  intro g size h
  unfold cs_codedirectory_validate at h ⊢
  split_ifs at h ⊢ with h1 h2 h3
  · exact absurd rfl h
  · exact absurd rfl h
  · exact absurd rfl h
  · exact ⟨by omega, by omega, by omega⟩

/-- Witness for claim C7's amended theorem at the concrete record gW7. -/
theorem C7_accepted_invariant_witness :
    sizeof_CS_CodeDirectory ≤ 88 ∧
    0 < cs_codedirectory_validate gW7 88 ∧
    cs_codedirectory_validate gW7 88 ≤ 88 :=
  C7_accepted_invariant gW7 88 (by decide)

/-- One step of the best-candidate update of the index loop, as a pure fold
step: a qualifying entry of strictly greater rank replaces the best. -/
def bestStep (f : Nat → Nat) (size : Nat) (best : Option (Nat × Nat × Nat))
    (k : Nat) : Option (Nat × Nat × Nat) :=
  if qualifiesSlot (sbIndexType f k) = true then
    if bestRank best < cs_codedirectory_rank (shiftView f (sbIndexOffset f k)) then
      some (sbIndexOffset f k,
        cs_codedirectory_rank (shiftView f (sbIndexOffset f k)),
        cs_codedirectory_validate (shiftView f (sbIndexOffset f k))
          (size - sbIndexOffset f k))
    else best
  else best

/-- Rank of a stored best candidate is its middle component. -/
theorem bestRank_some (o r s : Nat) : bestRank (some (o, r, s)) = r := rfl

/-- When every listed entry has an in-bounds offset and every qualifying one
validates, the index loop runs to completion and computes the fold of the
best-candidate update. -/
theorem sbFindAux_eq_foldl (f : Nat → Nat) (size : Nat) :
    ∀ (L : List Nat),
      (∀ k ∈ L, sbIndexOffset f k ≤ size ∧
        (qualifiesSlot (sbIndexType f k) = true →
          cs_codedirectory_validate (shiftView f (sbIndexOffset f k))
            (size - sbIndexOffset f k) ≠ 0)) →
      ∀ best, sbFindAux f size L best = some (List.foldl (bestStep f size) best L) := by
  intro L
  induction L with
  | nil => intro _ best; rfl
  | cons i rest ih =>
    intro h best
    obtain ⟨hoff, hval⟩ := h i (List.mem_cons_self i rest)
    have hrest := fun k hk => h k (List.mem_cons_of_mem i hk)
    rw [List.foldl_cons]
    show sbFindAux f size (i :: rest) best = _
    unfold sbFindAux
    rw [if_neg (by omega : ¬ size < sbIndexOffset f i)]
    by_cases hq : qualifiesSlot (sbIndexType f i) = true
    · rw [if_pos hq, if_neg (hval hq)]
      unfold bestStep
      rw [if_pos hq]
      by_cases hr : bestRank best <
          cs_codedirectory_rank (shiftView f (sbIndexOffset f i))
      · rw [if_pos hr, if_pos hr]
        exact ih hrest _
      · rw [if_neg hr, if_neg hr]
        exact ih hrest _
    · rw [if_neg hq]
      unfold bestStep
      rw [if_neg hq]
      exact ih hrest _

/-- If no listed qualifying entry outranks the current best, the fold keeps
the current best (ties keep the first seen). -/
theorem foldl_bestStep_stay (f : Nat → Nat) (size : Nat) :
    ∀ (L : List Nat) (best : Option (Nat × Nat × Nat)),
      (∀ k ∈ L, qualifiesSlot (sbIndexType f k) = true →
        cs_codedirectory_rank (shiftView f (sbIndexOffset f k)) ≤ bestRank best) →
      List.foldl (bestStep f size) best L = best := by
  intro L
  induction L with
  | nil => intro best _; rfl
  | cons i rest ih =>
    intro best h
    rw [List.foldl_cons]
    have hstep : bestStep f size best i = best := by
      unfold bestStep
      by_cases hq : qualifiesSlot (sbIndexType f i) = true
      · rw [if_pos hq, if_neg]
        exact Nat.not_lt.mpr (h i (List.mem_cons_self i rest) hq)
      · rw [if_neg hq]
    rw [hstep]
    exact ih best (fun k hk => h k (List.mem_cons_of_mem i hk))

/-- If a listed qualifying entry m strictly outranks the current best and
every listed qualifying entry either has strictly smaller rank than m or
stores the same offset and validated length as m, the fold ends at m's
candidate. -/
theorem foldl_bestStep_max (f : Nat → Nat) (size : Nat) :
    ∀ (L : List Nat) (best : Option (Nat × Nat × Nat)) (m : Nat), m ∈ L →
      qualifiesSlot (sbIndexType f m) = true →
      bestRank best < cs_codedirectory_rank (shiftView f (sbIndexOffset f m)) →
      (∀ k ∈ L, qualifiesSlot (sbIndexType f k) = true →
        cs_codedirectory_rank (shiftView f (sbIndexOffset f k)) ≤
          cs_codedirectory_rank (shiftView f (sbIndexOffset f m)) ∧
        (cs_codedirectory_rank (shiftView f (sbIndexOffset f k)) =
            cs_codedirectory_rank (shiftView f (sbIndexOffset f m)) →
          sbIndexOffset f k = sbIndexOffset f m ∧
          cs_codedirectory_validate (shiftView f (sbIndexOffset f k))
              (size - sbIndexOffset f k) =
            cs_codedirectory_validate (shiftView f (sbIndexOffset f m))
              (size - sbIndexOffset f m))) →
      List.foldl (bestStep f size) best L =
        some (sbIndexOffset f m,
          cs_codedirectory_rank (shiftView f (sbIndexOffset f m)),
          cs_codedirectory_validate (shiftView f (sbIndexOffset f m))
            (size - sbIndexOffset f m)) := by
  intro L
  induction L with
  | nil => intro best m hm; exact absurd hm (List.not_mem_nil m)
  | cons i rest ih =>
    intro best m hm hq hlt hall
    rw [List.foldl_cons]
    have hallrest := fun k hk => hall k (List.mem_cons_of_mem i hk)
    by_cases hqi : qualifiesSlot (sbIndexType f i) = true
    · obtain ⟨hle, heq⟩ := hall i (List.mem_cons_self i rest) hqi
      by_cases hri : bestRank best <
          cs_codedirectory_rank (shiftView f (sbIndexOffset f i))
      · have hstep : bestStep f size best i =
            some (sbIndexOffset f i,
              cs_codedirectory_rank (shiftView f (sbIndexOffset f i)),
              cs_codedirectory_validate (shiftView f (sbIndexOffset f i))
                (size - sbIndexOffset f i)) := by
          unfold bestStep
          rw [if_pos hqi, if_pos hri]
        rw [hstep]
        by_cases hie : cs_codedirectory_rank (shiftView f (sbIndexOffset f i)) =
            cs_codedirectory_rank (shiftView f (sbIndexOffset f m))
        · obtain ⟨ho, hv⟩ := heq hie
          rw [ho]
          apply foldl_bestStep_stay
          intro k hk hqk
          rw [bestRank_some]
          exact (hallrest k hk hqk).1
        · have hmi : m ≠ i := by
            intro hc
            rw [hc] at hie
            exact hie rfl
          have hmrest : m ∈ rest := by
            rcases List.mem_cons.mp hm with hc | hc
            · exact absurd hc hmi
            · exact hc
          apply ih _ m hmrest hq _ hallrest
          rw [bestRank_some]
          omega
      · have hstep : bestStep f size best i = best := by
          unfold bestStep
          rw [if_pos hqi, if_neg hri]
        rw [hstep]
        have hmi : m ≠ i := by
          intro hc
          rw [hc] at hlt
          exact hri hlt
        have hmrest : m ∈ rest := by
          rcases List.mem_cons.mp hm with hc | hc
          · exact absurd hc hmi
          · exact hc
        exact ih best m hmrest hq hlt hallrest
    · have hstep : bestStep f size best i = best := by
        unfold bestStep
        rw [if_neg hqi]
      rw [hstep]
      have hmi : m ≠ i := by
        intro hc
        rw [hc] at hq
        exact hqi hq
      have hmrest : m ∈ rest := by
        rcases List.mem_cons.mp hm with hc | hc
        · exact absurd hc hmi
        · exact hc
      exact ih best m hmrest hq hlt hallrest

/-- If some listed entry has an out-of-bounds offset or is a qualifying
entry that fails code-directory validation, the index loop aborts with
failure no matter what the other entries hold. -/
theorem sbFindAux_fails (f : Nat → Nat) (size : Nat) :
    ∀ (L : List Nat) (best : Option (Nat × Nat × Nat)),
      (∃ k ∈ L, size < sbIndexOffset f k ∨
        (qualifiesSlot (sbIndexType f k) = true ∧
          cs_codedirectory_validate (shiftView f (sbIndexOffset f k))
            (size - sbIndexOffset f k) = 0)) →
      sbFindAux f size L best = none := by
  intro L
  induction L with
  | nil =>
    intro best h
    obtain ⟨k, hk, _⟩ := h
    exact absurd hk (List.not_mem_nil k)
  | cons i rest ih =>
    intro best h
    unfold sbFindAux
    by_cases hoi : size < sbIndexOffset f i
    · rw [if_pos hoi]
    · rw [if_neg hoi]
      by_cases hqi : qualifiesSlot (sbIndexType f i) = true
      · rw [if_pos hqi]
        by_cases hvi : cs_codedirectory_validate (shiftView f (sbIndexOffset f i))
            (size - sbIndexOffset f i) = 0
        · rw [if_pos hvi]
        · rw [if_neg hvi]
          have hrest : ∃ k ∈ rest, size < sbIndexOffset f k ∨
              (qualifiesSlot (sbIndexType f k) = true ∧
                cs_codedirectory_validate (shiftView f (sbIndexOffset f k))
                  (size - sbIndexOffset f k) = 0) := by
            obtain ⟨k, hk, hbad⟩ := h
            rcases List.mem_cons.mp hk with hc | hc
            · subst hc
              rcases hbad with hb | hb
              · exact absurd hb hoi
              · exact absurd hb.2 hvi
            · exact ⟨k, hc, hbad⟩
          by_cases hri : bestRank best <
              cs_codedirectory_rank (shiftView f (sbIndexOffset f i))
          · rw [if_pos hri]
            exact ih _ hrest
          · rw [if_neg hri]
            exact ih _ hrest
      · rw [if_neg hqi]
        have hrest : ∃ k ∈ rest, size < sbIndexOffset f k ∨
            (qualifiesSlot (sbIndexType f k) = true ∧
              cs_codedirectory_validate (shiftView f (sbIndexOffset f k))
                (size - sbIndexOffset f k) = 0) := by
          obtain ⟨k, hk, hbad⟩ := h
          rcases List.mem_cons.mp hk with hc | hc
          · subst hc
            rcases hbad with hb | hb
            · exact absurd hb hoi
            · exact absurd hb.1 hqi
          · exact ⟨k, hc, hbad⟩
        exact ih _ hrest

/-- The rank scan, spelled out by hash-type cases. -/
theorem cs_codedirectory_rank_cases (g : Nat → Nat) :
    cs_codedirectory_rank g =
      if read8 g hashType_offset = CS_HASHTYPE_SHA1 then 1
      else if read8 g hashType_offset = CS_HASHTYPE_SHA256_TRUNCATED then 2
      else if read8 g hashType_offset = CS_HASHTYPE_SHA256 then 3
      else if read8 g hashType_offset = CS_HASHTYPE_SHA384 then 4
      else 0 := by
  unfold cs_codedirectory_rank ranked_hash_types CS_HASHTYPE_SHA1
    CS_HASHTYPE_SHA256 CS_HASHTYPE_SHA256_TRUNCATED CS_HASHTYPE_SHA384
  simp only [rankScan]
  split_ifs <;> omega

/-- Rank of a SHA-1 code directory. -/
theorem rank_of_sha1 (g : Nat → Nat)
    (h : read8 g hashType_offset = CS_HASHTYPE_SHA1) :
    cs_codedirectory_rank g = 1 := by
  rw [cs_codedirectory_rank_cases, h]
  decide

/-- Rank of a truncated-SHA-256 code directory. -/
theorem rank_of_sha256_truncated (g : Nat → Nat)
    (h : read8 g hashType_offset = CS_HASHTYPE_SHA256_TRUNCATED) :
    cs_codedirectory_rank g = 2 := by
  rw [cs_codedirectory_rank_cases, h]
  decide

/-- Rank of a SHA-256 code directory. -/
theorem rank_of_sha256 (g : Nat → Nat)
    (h : read8 g hashType_offset = CS_HASHTYPE_SHA256) :
    cs_codedirectory_rank g = 3 := by
  rw [cs_codedirectory_rank_cases, h]
  decide

/-- Rank of a SHA-384 code directory. -/
theorem rank_of_sha384 (g : Nat → Nat)
    (h : read8 g hashType_offset = CS_HASHTYPE_SHA384) :
    cs_codedirectory_rank g = 4 := by
  rw [cs_codedirectory_rank_cases, h]
  decide

/-- cs_superblob_cdhash hashes the found best candidate. -/
theorem cs_superblob_cdhash_of_found (sha1 sha256 : List Nat → List Nat)
    (f : Nat → Nat) (size o r s : Nat)
    (h : sbFindAux f size (List.range (read32BE f 8)) none = some (some (o, r, s))) :
    cs_superblob_cdhash sha1 sha256 f size =
      cs_codedirectory_cdhash sha1 sha256 (shiftView f o) s := by
  unfold cs_superblob_cdhash
  rw [h]

/-- cs_superblob_cdhash fails when the index loop aborts. -/
theorem cs_superblob_cdhash_of_abort (sha1 sha256 : List Nat → List Nat)
    (f : Nat → Nat) (size : Nat)
    (h : sbFindAux f size (List.range (read32BE f 8)) none = none) :
    cs_superblob_cdhash sha1 sha256 f size = (false, []) := by
  unfold cs_superblob_cdhash
  rw [h]

/-- cs_superblob_cdhash fails when no code directory was found. -/
theorem cs_superblob_cdhash_of_notfound (sha1 sha256 : List Nat → List Nat)
    (f : Nat → Nat) (size : Nat)
    (h : sbFindAux f size (List.range (read32BE f 8)) none = some none) :
    cs_superblob_cdhash sha1 sha256 f size = (false, []) := by
  unfold cs_superblob_cdhash
  rw [h]

/-- cs_codedirectory_cdhash on a SHA-256 code directory. -/
theorem cs_codedirectory_cdhash_of_sha256 (sha1 sha256 : List Nat → List Nat)
    (g : Nat → Nat) (size : Nat)
    (h : read8 g hashType_offset = CS_HASHTYPE_SHA256) :
    cs_codedirectory_cdhash sha1 sha256 g size =
      (true, [cdhash_sha256 sha256 g (read32BE g 4)]) := by
  unfold cs_codedirectory_cdhash
  rw [if_neg (by rw [h]; decide), if_pos h]

/-- cs_codedirectory_cdhash on any hash type other than SHA-1 or SHA-256
fails without writing. -/
theorem cs_codedirectory_cdhash_unsupported (sha1 sha256 : List Nat → List Nat)
    (g : Nat → Nat) (size : Nat)
    (h1 : read8 g hashType_offset ≠ CS_HASHTYPE_SHA1)
    (h2 : read8 g hashType_offset ≠ CS_HASHTYPE_SHA256) :
    cs_codedirectory_cdhash sha1 sha256 g size = (false, []) := by
  unfold cs_codedirectory_cdhash
  rw [if_neg h1, if_neg h2]

/-- Claim C3: the rank function is the 1-based position in the fixed list
[SHA1, SHA256_TRUNCATED, SHA256, SHA384] (0 otherwise), and for every
super-blob whose qualifying index entries are exactly a valid SHA-1 code
directory and a valid SHA-256 code directory — in either order —
cs_superblob_cdhash succeeds with the first CS_CDHASH_LEN bytes of the
SHA-256 digest of the SHA-256 code directory's declared-length bytes. -/
theorem C3_sha256_selected_over_sha1 :
    (∀ g : Nat → Nat, cs_codedirectory_rank g =
      if read8 g hashType_offset = CS_HASHTYPE_SHA1 then 1
      else if read8 g hashType_offset = CS_HASHTYPE_SHA256_TRUNCATED then 2
      else if read8 g hashType_offset = CS_HASHTYPE_SHA256 then 3
      else if read8 g hashType_offset = CS_HASHTYPE_SHA384 then 4
      else 0) ∧
    (∀ (sha1 sha256 : List Nat → List Nat) (f : Nat → Nat) (size i j : Nat),
      i < read32BE f 8 → j < read32BE f 8 → i ≠ j →
      (∀ k, k < read32BE f 8 → sbIndexOffset f k ≤ size) →
      (∀ k, k < read32BE f 8 →
        (qualifiesSlot (sbIndexType f k) = true ↔ (k = i ∨ k = j))) →
      cs_codedirectory_validate (shiftView f (sbIndexOffset f i))
        (size - sbIndexOffset f i) ≠ 0 →
      read8 (shiftView f (sbIndexOffset f i)) hashType_offset = CS_HASHTYPE_SHA1 →
      cs_codedirectory_validate (shiftView f (sbIndexOffset f j))
        (size - sbIndexOffset f j) ≠ 0 →
      read8 (shiftView f (sbIndexOffset f j)) hashType_offset = CS_HASHTYPE_SHA256 →
      cs_superblob_cdhash sha1 sha256 f size =
        (true, [(sha256 (bytesOf (shiftView f (sbIndexOffset f j))
          (read32BE (shiftView f (sbIndexOffset f j)) 4))).take CS_CDHASH_LEN])) := by
  refine ⟨cs_codedirectory_rank_cases, ?_⟩
  intro sha1 sha256 f size i j hi hj hij hoff hqual hvi hti hvj htj
  have hranki : cs_codedirectory_rank (shiftView f (sbIndexOffset f i)) = 1 :=
    rank_of_sha1 _ hti
  have hrankj : cs_codedirectory_rank (shiftView f (sbIndexOffset f j)) = 3 :=
    rank_of_sha256 _ htj
  have hcond : ∀ k ∈ List.range (read32BE f 8), sbIndexOffset f k ≤ size ∧
      (qualifiesSlot (sbIndexType f k) = true →
        cs_codedirectory_validate (shiftView f (sbIndexOffset f k))
          (size - sbIndexOffset f k) ≠ 0) := by
    intro k hk
    have hk2 := List.mem_range.mp hk
    refine ⟨hoff k hk2, fun hq => ?_⟩
    rcases (hqual k hk2).mp hq with hc | hc
    · subst hc; exact hvi
    · subst hc; exact hvj
  have hrun := sbFindAux_eq_foldl f size (List.range (read32BE f 8)) hcond none
  have hqj : qualifiesSlot (sbIndexType f j) = true :=
    (hqual j hj).mpr (Or.inr rfl)
  have hall : ∀ k ∈ List.range (read32BE f 8),
      qualifiesSlot (sbIndexType f k) = true →
      cs_codedirectory_rank (shiftView f (sbIndexOffset f k)) ≤
        cs_codedirectory_rank (shiftView f (sbIndexOffset f j)) ∧
      (cs_codedirectory_rank (shiftView f (sbIndexOffset f k)) =
          cs_codedirectory_rank (shiftView f (sbIndexOffset f j)) →
        sbIndexOffset f k = sbIndexOffset f j ∧
        cs_codedirectory_validate (shiftView f (sbIndexOffset f k))
            (size - sbIndexOffset f k) =
          cs_codedirectory_validate (shiftView f (sbIndexOffset f j))
            (size - sbIndexOffset f j)) := by
    intro k hk hqk
    have hk2 := List.mem_range.mp hk
    rcases (hqual k hk2).mp hqk with hc | hc
    · subst hc
      refine ⟨by rw [hranki, hrankj]; omega, fun hE => ?_⟩
      rw [hranki, hrankj] at hE
      exact absurd hE (by decide)
    · subst hc
      exact ⟨Nat.le_refl _, fun _ => ⟨rfl, rfl⟩⟩
  have hfold := foldl_bestStep_max f size (List.range (read32BE f 8)) none j
    (List.mem_range.mpr hj) hqj (by rw [hrankj]; decide) hall
  rw [hfold] at hrun
  rw [cs_superblob_cdhash_of_found sha1 sha256 f size _ _ _ hrun]
  rw [cs_codedirectory_cdhash_of_sha256 sha1 sha256 _ _ htj]
  rfl

/-- A digest stand-in used only to instantiate the abstract hash functions
at concrete witnesses. -/
def dummyDigest (seed : Nat) : List Nat → List Nat :=
  fun bs => List.replicate 32 ((seed + bs.length) % 256)

/-- A 216-byte super-blob with two qualifying index entries: entry 0 a valid
SHA-1 code directory at offset 28, entry 1 a valid SHA-256 code directory at
offset 128, both of declared length 88. -/
def fW3 : Nat → Nat := fun off =>
  if off = 0 then 0xfa else if off = 1 then 0xde
  else if off = 2 then 0x0c else if off = 3 then 0xc0
  else if off = 7 then 216
  else if off = 11 then 2
  else if off = 19 then 28
  else if off = 22 then 0x10
  else if off = 27 then 128
  else if off = 28 then 0xfa else if off = 29 then 0xde
  else if off = 30 then 0x0c else if off = 31 then 0x02
  else if off = 35 then 88
  else if off = 65 then 1
  else if off = 128 then 0xfa else if off = 129 then 0xde
  else if off = 130 then 0x0c else if off = 131 then 0x02
  else if off = 135 then 88
  else if off = 165 then 2
  else 0

/-- Witness for claim C3 at the concrete super-blob fW3 (SHA-1 entry first,
SHA-256 entry second). -/
theorem C3_sha256_selected_over_sha1_witness :
    cs_superblob_cdhash (dummyDigest 1) (dummyDigest 2) fW3 216 =
      (true, [((dummyDigest 2) (bytesOf (shiftView fW3 (sbIndexOffset fW3 1))
        (read32BE (shiftView fW3 (sbIndexOffset fW3 1)) 4))).take CS_CDHASH_LEN]) :=
  C3_sha256_selected_over_sha1.2 (dummyDigest 1) (dummyDigest 2) fW3 216 0 1
    (by decide) (by decide) (by decide) (by decide) (by decide) (by decide)
    (by decide) (by decide) (by decide)

/-- Claim C4: cs_codedirectory_cdhash fails for every hash type other than
SHA-1 and SHA-256, even rankable ones; hence when a super-blob's qualifying
entries all validate and the strictly highest-ranked one declares
SHA256_TRUNCATED or SHA384 while a lower-ranked valid SHA-1 or SHA-256 code
directory is also present, the highest-ranked directory is selected and the
whole computation then fails. -/
theorem C4_unhashable_winner_fails :
    (∀ (sha1 sha256 : List Nat → List Nat) (g : Nat → Nat) (size : Nat),
      read8 g hashType_offset ≠ CS_HASHTYPE_SHA1 →
      read8 g hashType_offset ≠ CS_HASHTYPE_SHA256 →
      cs_codedirectory_cdhash sha1 sha256 g size = (false, [])) ∧
    (∀ (sha1 sha256 : List Nat → List Nat) (f : Nat → Nat) (size m : Nat),
      m < read32BE f 8 →
      (∀ k, k < read32BE f 8 → sbIndexOffset f k ≤ size) →
      (∀ k, k < read32BE f 8 → qualifiesSlot (sbIndexType f k) = true →
        cs_codedirectory_validate (shiftView f (sbIndexOffset f k))
          (size - sbIndexOffset f k) ≠ 0) →
      qualifiesSlot (sbIndexType f m) = true →
      (read8 (shiftView f (sbIndexOffset f m)) hashType_offset =
          CS_HASHTYPE_SHA256_TRUNCATED ∨
        read8 (shiftView f (sbIndexOffset f m)) hashType_offset =
          CS_HASHTYPE_SHA384) →
      (∀ k, k < read32BE f 8 → qualifiesSlot (sbIndexType f k) = true → k ≠ m →
        cs_codedirectory_rank (shiftView f (sbIndexOffset f k)) <
          cs_codedirectory_rank (shiftView f (sbIndexOffset f m))) →
      (∃ k, k < read32BE f 8 ∧ qualifiesSlot (sbIndexType f k) = true ∧
        (read8 (shiftView f (sbIndexOffset f k)) hashType_offset =
            CS_HASHTYPE_SHA1 ∨
          read8 (shiftView f (sbIndexOffset f k)) hashType_offset =
            CS_HASHTYPE_SHA256)) →
      sbFindAux f size (List.range (read32BE f 8)) none =
        some (some (sbIndexOffset f m,
          cs_codedirectory_rank (shiftView f (sbIndexOffset f m)),
          cs_codedirectory_validate (shiftView f (sbIndexOffset f m))
            (size - sbIndexOffset f m))) ∧
      cs_superblob_cdhash sha1 sha256 f size = (false, [])) := by
  refine ⟨cs_codedirectory_cdhash_unsupported, ?_⟩
  intro sha1 sha256 f size m hm hoff hval hqm htm hmax hlower
  have hrankm : 0 < cs_codedirectory_rank (shiftView f (sbIndexOffset f m)) := by
    rcases htm with h | h
    · rw [rank_of_sha256_truncated _ h]; omega
    · rw [rank_of_sha384 _ h]; omega
  have hcond : ∀ k ∈ List.range (read32BE f 8), sbIndexOffset f k ≤ size ∧
      (qualifiesSlot (sbIndexType f k) = true →
        cs_codedirectory_validate (shiftView f (sbIndexOffset f k))
          (size - sbIndexOffset f k) ≠ 0) := by
    intro k hk
    have hk2 := List.mem_range.mp hk
    exact ⟨hoff k hk2, fun hq => hval k hk2 hq⟩
  have hrun := sbFindAux_eq_foldl f size (List.range (read32BE f 8)) hcond none
  have hall : ∀ k ∈ List.range (read32BE f 8),
      qualifiesSlot (sbIndexType f k) = true →
      cs_codedirectory_rank (shiftView f (sbIndexOffset f k)) ≤
        cs_codedirectory_rank (shiftView f (sbIndexOffset f m)) ∧
      (cs_codedirectory_rank (shiftView f (sbIndexOffset f k)) =
          cs_codedirectory_rank (shiftView f (sbIndexOffset f m)) →
        sbIndexOffset f k = sbIndexOffset f m ∧
        cs_codedirectory_validate (shiftView f (sbIndexOffset f k))
            (size - sbIndexOffset f k) =
          cs_codedirectory_validate (shiftView f (sbIndexOffset f m))
            (size - sbIndexOffset f m)) := by
    intro k hk hqk
    have hk2 := List.mem_range.mp hk
    by_cases hkm : k = m
    · subst hkm
      exact ⟨Nat.le_refl _, fun _ => ⟨rfl, rfl⟩⟩
    · have hlt := hmax k hk2 hqk hkm
      exact ⟨Nat.le_of_lt hlt, fun hE => absurd hE (Nat.ne_of_lt hlt)⟩
  have hfold := foldl_bestStep_max f size (List.range (read32BE f 8)) none m
    (List.mem_range.mpr hm) hqm hrankm hall
  rw [hfold] at hrun
  refine ⟨hrun, ?_⟩
  rw [cs_superblob_cdhash_of_found sha1 sha256 f size _ _ _ hrun]
  apply cs_codedirectory_cdhash_unsupported
  · rcases htm with h | h <;> rw [h] <;> decide
  · rcases htm with h | h <;> rw [h] <;> decide

/-- A 216-byte super-blob with two qualifying entries: entry 0 a valid
SHA-1 code directory at offset 28 and entry 1 a valid SHA-384 code directory
at offset 128, both of declared length 88. -/
def fW4 : Nat → Nat := fun off =>
  if off = 0 then 0xfa else if off = 1 then 0xde
  else if off = 2 then 0x0c else if off = 3 then 0xc0
  else if off = 7 then 216
  else if off = 11 then 2
  else if off = 19 then 28
  else if off = 22 then 0x10
  else if off = 27 then 128
  else if off = 28 then 0xfa else if off = 29 then 0xde
  else if off = 30 then 0x0c else if off = 31 then 0x02
  else if off = 35 then 88
  else if off = 65 then 1
  else if off = 128 then 0xfa else if off = 129 then 0xde
  else if off = 130 then 0x0c else if off = 131 then 0x02
  else if off = 135 then 88
  else if off = 165 then 4
  else 0

/-- Witness for claim C4 at the concrete super-blob fW4: the SHA-384 code
directory wins the ranking and the computation fails. -/
theorem C4_unhashable_winner_fails_witness :
    sbFindAux fW4 216 (List.range (read32BE fW4 8)) none =
      some (some (sbIndexOffset fW4 1,
        cs_codedirectory_rank (shiftView fW4 (sbIndexOffset fW4 1)),
        cs_codedirectory_validate (shiftView fW4 (sbIndexOffset fW4 1))
          (216 - sbIndexOffset fW4 1))) ∧
    cs_superblob_cdhash (dummyDigest 1) (dummyDigest 2) fW4 216 = (false, []) :=
  C4_unhashable_winner_fails.2 (dummyDigest 1) (dummyDigest 2) fW4 216 1
    (by decide) (by decide) (by decide) (by decide) (by decide) (by decide)
    ⟨0, by decide⟩

/-- Claim C10: a code directory whose hash type is outside the ranked list
(rank 0) never replaces the initially empty best candidate, so a super-blob
whose qualifying entries all validate but all have rank 0 fails exactly as
if no code directory were present. -/
theorem C10_rank_zero_never_selected :
    ∀ (sha1 sha256 : List Nat → List Nat) (f : Nat → Nat) (size : Nat),
      (∃ k, k < read32BE f 8 ∧ qualifiesSlot (sbIndexType f k) = true) →
      (∀ k, k < read32BE f 8 → sbIndexOffset f k ≤ size) →
      (∀ k, k < read32BE f 8 → qualifiesSlot (sbIndexType f k) = true →
        cs_codedirectory_validate (shiftView f (sbIndexOffset f k))
          (size - sbIndexOffset f k) ≠ 0 ∧
        cs_codedirectory_rank (shiftView f (sbIndexOffset f k)) = 0) →
      sbFindAux f size (List.range (read32BE f 8)) none = some none ∧
      cs_superblob_cdhash sha1 sha256 f size = (false, []) := by
  intro sha1 sha256 f size hex hoff h
  have hcond : ∀ k ∈ List.range (read32BE f 8), sbIndexOffset f k ≤ size ∧
      (qualifiesSlot (sbIndexType f k) = true →
        cs_codedirectory_validate (shiftView f (sbIndexOffset f k))
          (size - sbIndexOffset f k) ≠ 0) := by
    intro k hk
    have hk2 := List.mem_range.mp hk
    exact ⟨hoff k hk2, fun hq => (h k hk2 hq).1⟩
  have hrun := sbFindAux_eq_foldl f size (List.range (read32BE f 8)) hcond none
  have hstay := foldl_bestStep_stay f size (List.range (read32BE f 8)) none
    (fun k hk hq => by
      rw [(h k (List.mem_range.mp hk) hq).2]
      exact Nat.zero_le _)
  rw [hstay] at hrun
  exact ⟨hrun, cs_superblob_cdhash_of_notfound sha1 sha256 f size hrun⟩

/-- A 216-byte super-blob with one qualifying entry: a valid code directory
at offset 28 of declared length 88 whose hash type 5 is outside the ranked
list. -/
def fW10 : Nat → Nat := fun off =>
  if off = 0 then 0xfa else if off = 1 then 0xde
  else if off = 2 then 0x0c else if off = 3 then 0xc0
  else if off = 7 then 216
  else if off = 11 then 1
  else if off = 19 then 28
  else if off = 28 then 0xfa else if off = 29 then 0xde
  else if off = 30 then 0x0c else if off = 31 then 0x02
  else if off = 35 then 88
  else if off = 65 then 5
  else 0

/-- Witness for claim C10 at the concrete super-blob fW10. -/
theorem C10_rank_zero_never_selected_witness :
    sbFindAux fW10 216 (List.range (read32BE fW10 8)) none = some none ∧
    cs_superblob_cdhash (dummyDigest 1) (dummyDigest 2) fW10 216 = (false, []) :=
  C10_rank_zero_never_selected (dummyDigest 1) (dummyDigest 2) fW10 216
    ⟨0, by decide⟩ (by decide) (by decide)

/-- Claim C8: any index entry whose offset exceeds size makes
cs_superblob_cdhash fail outright; a qualifying entry whose code directory
fails validation makes it fail even if other qualifying entries are valid;
and a qualifying valid entry whose rank merely ties the current best leaves
the first-seen best in place. -/
theorem C8_hard_failures_and_first_seen_ties :
    (∀ (sha1 sha256 : List Nat → List Nat) (f : Nat → Nat) (size : Nat),
      (∃ k, k < read32BE f 8 ∧ size < sbIndexOffset f k) →
      cs_superblob_cdhash sha1 sha256 f size = (false, [])) ∧
    (∀ (sha1 sha256 : List Nat → List Nat) (f : Nat → Nat) (size : Nat),
      (∃ k, k < read32BE f 8 ∧ qualifiesSlot (sbIndexType f k) = true ∧
        sbIndexOffset f k ≤ size ∧
        cs_codedirectory_validate (shiftView f (sbIndexOffset f k))
          (size - sbIndexOffset f k) = 0) →
      cs_superblob_cdhash sha1 sha256 f size = (false, [])) ∧
    (∀ (f : Nat → Nat) (size o r s k : Nat) (rest : List Nat),
      sbIndexOffset f k ≤ size →
      qualifiesSlot (sbIndexType f k) = true →
      cs_codedirectory_validate (shiftView f (sbIndexOffset f k))
        (size - sbIndexOffset f k) ≠ 0 →
      cs_codedirectory_rank (shiftView f (sbIndexOffset f k)) = r →
      sbFindAux f size (k :: rest) (some (o, r, s)) =
        sbFindAux f size rest (some (o, r, s))) := by
  refine ⟨?_, ?_, ?_⟩
  · intro sha1 sha256 f size hex
    obtain ⟨k, hk, hbad⟩ := hex
    apply cs_superblob_cdhash_of_abort
    exact sbFindAux_fails f size _ none ⟨k, List.mem_range.mpr hk, Or.inl hbad⟩
  · intro sha1 sha256 f size hex
    obtain ⟨k, hk, hq, _, hv⟩ := hex
    apply cs_superblob_cdhash_of_abort
    exact sbFindAux_fails f size _ none ⟨k, List.mem_range.mpr hk, Or.inr ⟨hq, hv⟩⟩
  · intro f size o r s k rest hoff hq hv hr
    show sbFindAux f size (k :: rest) (some (o, r, s)) = _
    unfold sbFindAux
    rw [if_neg (by omega : ¬ size < sbIndexOffset f k), if_pos hq, if_neg hv,
      if_neg (by rw [bestRank_some, hr]; exact Nat.lt_irrefl r)]
    cases rest <;> rfl

/-- A 216-byte super-blob whose single index entry has offset 255, past the
end of the blob. -/
def fW8 : Nat → Nat := fun off =>
  if off = 0 then 0xfa else if off = 1 then 0xde
  else if off = 2 then 0x0c else if off = 3 then 0xc0
  else if off = 7 then 216
  else if off = 11 then 1
  else if off = 19 then 255
  else 0

/-- Witness for claim C8 at the concrete super-blob fW8: the out-of-bounds
index offset makes the whole computation fail. -/
theorem C8_hard_failures_and_first_seen_ties_witness :
    cs_superblob_cdhash (dummyDigest 1) (dummyDigest 2) fW8 216 = (false, []) :=
  C8_hard_failures_and_first_seen_ties.1 (dummyDigest 1) (dummyDigest 2) fW8 216
    ⟨0, by decide⟩


/-- Claim C9: compute_cdhash_macho fails when the code-signature load
command is absent; when it is present, the computation fails unless the
region given by dataoff/datasize satisfies header < start < end ≤ header +
size, and exactly when those bounds hold the region is handed to the blob
dispatcher. -/
theorem C9_signature_region_bounds :
    ∀ (fuel : Nat) (sha1 sha256 : List Nat → List Nat) (f : Nat → Nat)
      (size : Nat),
      (macho_find_load_command fuel f LC_CODE_SIGNATURE none = some none →
        compute_cdhash_macho fuel sha1 sha256 f size = some (false, [])) ∧
      (∀ lcOff,
        macho_find_load_command fuel f LC_CODE_SIGNATURE none = some (some lcOff) →
        (¬ (0 < read32LE f (lcOff + 8) ∧
            read32LE f (lcOff + 8) <
              read32LE f (lcOff + 8) + read32LE f (lcOff + 12) ∧
            read32LE f (lcOff + 8) + read32LE f (lcOff + 12) ≤ size) →
          compute_cdhash_macho fuel sha1 sha256 f size = some (false, [])) ∧
        ((0 < read32LE f (lcOff + 8) ∧
            read32LE f (lcOff + 8) <
              read32LE f (lcOff + 8) + read32LE f (lcOff + 12) ∧
            read32LE f (lcOff + 8) + read32LE f (lcOff + 12) ≤ size) →
          compute_cdhash_macho fuel sha1 sha256 f size =
            some (csblob_cdhash sha1 sha256
              (shiftView f (read32LE f (lcOff + 8)))
              (read32LE f (lcOff + 12))))) := by
  intro fuel sha1 sha256 f size
  constructor
  · intro h
    unfold compute_cdhash_macho
    rw [h]
  · intro lcOff h
    constructor
    · intro hc
      unfold compute_cdhash_macho
      rw [h]
      exact if_neg hc
    · intro hc
      unfold compute_cdhash_macho
      rw [h]
      exact if_pos hc

/-- Witness for claim C9: the all-zero buffer has sizeofcmds 0, so the
code-signature load command is absent and the computation fails. -/
theorem C9_signature_region_bounds_witness :
    compute_cdhash_macho 1 (dummyDigest 1) (dummyDigest 2) (fun _ => 0) 0 =
      some (false, []) :=
  (C9_signature_region_bounds 1 (dummyDigest 1) (dummyDigest 2)
    (fun _ => 0) 0).1 (by decide)

/-- On both branches of cs_codedirectory_cdhash the write event list is
nonempty exactly when the function reports success. -/
theorem writes_iff_cd (sha1 sha256 : List Nat → List Nat) (g : Nat → Nat)
    (size : Nat) :
    ((cs_codedirectory_cdhash sha1 sha256 g size).1 = true ↔
      (cs_codedirectory_cdhash sha1 sha256 g size).2 ≠ []) := by
  unfold cs_codedirectory_cdhash
  split_ifs <;> simp

/-- cs_superblob_cdhash writes exactly when it reports success. -/
theorem writes_iff_sb (sha1 sha256 : List Nat → List Nat) (f : Nat → Nat)
    (size : Nat) :
    ((cs_superblob_cdhash sha1 sha256 f size).1 = true ↔
      (cs_superblob_cdhash sha1 sha256 f size).2 ≠ []) := by
  rcases hsb : sbFindAux f size (List.range (read32BE f 8)) none with _ | ob
  · rw [cs_superblob_cdhash_of_abort sha1 sha256 f size hsb]
    simp
  · rcases ob with _ | ⟨o, r, s⟩
    · rw [cs_superblob_cdhash_of_notfound sha1 sha256 f size hsb]
      simp
    · rw [cs_superblob_cdhash_of_found sha1 sha256 f size o r s hsb]
      exact writes_iff_cd sha1 sha256 _ _

/-- csblob_cdhash writes exactly when it reports success. -/
theorem writes_iff_blob (sha1 sha256 : List Nat → List Nat) (f : Nat → Nat)
    (size : Nat) :
    ((csblob_cdhash sha1 sha256 f size).1 = true ↔
      (csblob_cdhash sha1 sha256 f size).2 ≠ []) := by
  unfold csblob_cdhash
  split_ifs <;>
    first
    | exact writes_iff_sb sha1 sha256 f (read32BE f 4)
    | exact writes_iff_cd sha1 sha256 f (read32BE f 4)
    | simp

/-- compute_cdhash_macho, when it terminates, writes exactly when it
reports success. -/
theorem writes_iff_macho (fuel : Nat) (sha1 sha256 : List Nat → List Nat)
    (f : Nat → Nat) (size : Nat) (b : Bool) (ws : List (List Nat))
    (h : compute_cdhash_macho fuel sha1 sha256 f size = some (b, ws)) :
    (b = true ↔ ws ≠ []) := by
  rcases hfind : macho_find_load_command fuel f LC_CODE_SIGNATURE none
    with _ | _ | lcOff
  · have heq : compute_cdhash_macho fuel sha1 sha256 f size = none := by
      unfold compute_cdhash_macho
      rw [hfind]
    rw [heq] at h
    exact absurd h (by simp)
  · have heq : compute_cdhash_macho fuel sha1 sha256 f size = some (false, []) := by
      unfold compute_cdhash_macho
      rw [hfind]
    rw [heq] at h
    simp only [Option.some.injEq, Prod.mk.injEq] at h
    obtain ⟨hb, hw⟩ := h
    subst hb
    subst hw
    simp
  · by_cases hc : 0 < read32LE f (lcOff + 8) ∧
        read32LE f (lcOff + 8) <
          read32LE f (lcOff + 8) + read32LE f (lcOff + 12) ∧
        read32LE f (lcOff + 8) + read32LE f (lcOff + 12) ≤ size
    · have heq : compute_cdhash_macho fuel sha1 sha256 f size =
          some (csblob_cdhash sha1 sha256
            (shiftView f (read32LE f (lcOff + 8)))
            (read32LE f (lcOff + 12))) := by
        unfold compute_cdhash_macho
        rw [hfind]
        exact if_pos hc
      rw [heq] at h
      have h2 := Option.some.inj h
      have hb : b = (csblob_cdhash sha1 sha256
          (shiftView f (read32LE f (lcOff + 8)))
          (read32LE f (lcOff + 12))).1 := by
        rw [h2]
      have hw : ws = (csblob_cdhash sha1 sha256
          (shiftView f (read32LE f (lcOff + 8)))
          (read32LE f (lcOff + 12))).2 := by
        rw [h2]
      rw [hb, hw]
      exact writes_iff_blob sha1 sha256 _ _
    · have heq : compute_cdhash_macho fuel sha1 sha256 f size =
          some (false, []) := by
        unfold compute_cdhash_macho
        rw [hfind]
        exact if_neg hc
      rw [heq] at h
      simp only [Option.some.injEq, Prod.mk.injEq] at h
      obtain ⟨hb, hw⟩ := h
      subst hb
      subst hw
      simp

/-- Claim C5: whenever compute_cdhash terminates with a boolean result and a
list of output-buffer write events, the output buffer was written exactly
when the result is true — on every failure path nothing is written. -/
theorem C5_output_written_iff_success :
    ∀ (fuel : Nat) (sha1 sha256 : List Nat → List Nat) (f : Nat → Nat)
      (size : Nat) (b : Bool) (ws : List (List Nat)),
      compute_cdhash fuel sha1 sha256 f size = some (b, ws) →
      (b = true ↔ ws ≠ []) := by
  intro fuel sha1 sha256 f size b ws h
  by_cases hid : macho_identify f size = true
  · rcases hval : macho_validate fuel f size with _ | bv
    · have heq : compute_cdhash fuel sha1 sha256 f size = none := by
        unfold compute_cdhash
        rw [if_pos hid, hval]
      rw [heq] at h
      exact absurd h (by simp)
    · cases bv
      · have heq : compute_cdhash fuel sha1 sha256 f size = some (false, []) := by
          unfold compute_cdhash
          rw [if_pos hid, hval]
        rw [heq] at h
        simp only [Option.some.injEq, Prod.mk.injEq] at h
        obtain ⟨hb, hw⟩ := h
        subst hb
        subst hw
        simp
      · have heq : compute_cdhash fuel sha1 sha256 f size =
            compute_cdhash_macho fuel sha1 sha256 f size := by
          unfold compute_cdhash
          rw [if_pos hid, hval]
        rw [heq] at h
        exact writes_iff_macho fuel sha1 sha256 f size b ws h
  · have heq : compute_cdhash fuel sha1 sha256 f size = some (false, []) := by
      unfold compute_cdhash
      rw [if_neg hid]
    rw [heq] at h
    simp only [Option.some.injEq, Prod.mk.injEq] at h
    obtain ⟨hb, hw⟩ := h
    subst hb
    subst hw
    simp

/-- Witness for claim C5 at a concrete input: the empty buffer fails and
writes nothing. -/
theorem C5_output_written_iff_success_witness :
    ((false = true) ↔ (([] : List (List Nat)) ≠ [])) :=
  C5_output_written_iff_success 1 (dummyDigest 1) (dummyDigest 2)
    (fun _ => 0) 0 false [] (by decide)

/-- Erasing the recorded read offsets from the instrumented load-command
walk gives back the plain walk, so the instrumentation changes nothing
about the computed result. -/
theorem machoValidateLoopR_fst (f : Nat → Nat) :
    ∀ (fuel lcEnd lcP : Nat),
      (machoValidateLoopR fuel f lcEnd lcP).map Prod.fst =
        machoValidateLoop fuel f lcEnd lcP := by
  intro fuel
  induction fuel with
  | zero => intro lcEnd lcP; rfl
  | succ n ih =>
    intro lcEnd lcP
    unfold machoValidateLoopR machoValidateLoop
    split_ifs
    · rfl
    · rfl
    · rcases hr : machoValidateLoopR n f lcEnd (lcP + read32LE f (lcP + 4))
        with _ | p
      · rw [← ih lcEnd (lcP + read32LE f (lcP + 4)), hr]
      · obtain ⟨b, rs⟩ := p
        rw [← ih lcEnd (lcP + read32LE f (lcP + 4)), hr]
        rfl
    · rfl
